import Mathlib

/-
Verification of the start command of the command-start-stop plugin.

Shallow embedding of:
  * src/src/handlers/shared/start.ts        (start, handleTaskLimitChecks, fetchUserIds)
  * src/unnamed/part_000, first section      (hasUserBeenUnassigned, getAssignmentEvents)
  * src/unnamed/part_000, second section     (getAvailableOpenedPullRequests, GraphQL version,
                                              getLatestReviewStatus, isParentIssue)
  * src/unnamed/part_000, third section      (getAvailableOpenedPullRequests, REST version)

Remote reads (issue search counts, task limits, collaborator status, user id
lookups, the assignment timeline) are modelled as fields of an Env record that
stands for the results the octokit calls would return; the decision logic
itself is translated statement by statement from the TypeScript.  Timestamps
are milliseconds as Nat.  JavaScript toLowerCase is modelled on ASCII letters,
which covers GitHub logins.
-/

/-- ASCII lower-casing of one character, modelling String.prototype.toLowerCase
on the login alphabet. -/
def lowerChar (c : Char) : Char :=
  if 'A' ≤ c ∧ c ≤ 'Z' then Char.ofNat (c.toNat + 32) else c

/-- ASCII lower-casing of a string. -/
def lowerStr (s : String) : String :=
  ⟨s.data.map lowerChar⟩

/-- Substring test on character lists, modelling String.prototype.includes. -/
def containsSub (pat : List Char) : List Char → Bool
  | [] => pat.isEmpty
  | c :: t => pat.isPrefixOf (c :: t) || containsSub pat t

/-- Whitespace class of the regex metacharacter backslash-s. -/
def isWsChar (c : Char) : Bool :=
  c = ' ' || c = '\t' || c = '\n' || c = '\r' || c = '\x0b' || c = '\x0c'

/-- Consume one or more whitespace characters (greedy), or fail. -/
def skipWs1 : List Char → Option (List Char)
  | [] => none
  | c :: cs => if isWsChar c then some (cs.dropWhile isWsChar) else none

/-- Match the parent-issue pattern (a dash, whitespace, a one-character
checkbox, whitespace, a hash and a digit) at the head of the character list. -/
def parentPatternAt : List Char → Bool
  | '-' :: rest =>
    match skipWs1 rest with
    | some ('[' :: c :: ']' :: rest2) =>
      (c = ' ' || c = 'x') &&
      (match skipWs1 rest2 with
       | some ('#' :: d :: _) => d.isDigit
       | _ => false)
    | _ => false
  | _ => false

/-- Search the parent-issue pattern anywhere in the character list. -/
def parentPatternSearch : List Char → Bool
  | [] => false
  | c :: cs => parentPatternAt (c :: cs) || parentPatternSearch cs

/-- isParentIssue from part_000: the body matches the checklist child-task
reference pattern. -/
def isParentIssue (body : String) : Bool :=
  parentPatternSearch body.data

/-- Kind of an assignment-timeline event (only assigned and unassigned events
survive the filter in getAssignmentEvents). -/
inductive EvKind where
  | assigned
  | unassigned
deriving DecidableEq, Repr

/-- One record produced by getAssignmentEvents: event kind, actor login, actor
numeric id, assignee login and timestamp.  Events whose actor or assignee is
missing are dropped by the source before this point. -/
structure AssignmentEvent where
  kind : EvKind
  actor : String
  actorId : Nat
  assignee : String
  createdAt : Nat
deriving DecidableEq, Repr

/-- hasUserBeenUnassigned from part_000.  The function receives only the
context; the login it filters by is the comment author or payload sender
(senderLogin here), never a per-candidate username.  appId models the parsed
APP_ID environment value. -/
def hasUserBeenUnassigned (appId : Nat) (senderLogin : String) (events : List AssignmentEvent) : Bool :=
  let s := lowerStr senderLogin
  let userAssignments := events.filter (fun e => lowerStr e.assignee == s)
  if userAssignments.isEmpty then false
  else
    let unassignedEvents := userAssignments.filter (fun e => e.kind == EvKind.unassigned)
    let botUnassigned := unassignedEvents.filter (fun e => e.actorId == appId)
    let adminUnassigned := unassignedEvents.filter (fun e => lowerStr e.actor != s && e.actorId != appId)
    decide (0 < botUnassigned.length) || decide (0 < adminUnassigned.length)

/-- adjustedAssignedIssues from handleTaskLimitChecks:
assignedIssues.length - approved.length + changes.length, over the integers. -/
def adjustedCount (assigned approved changes : Nat) : Int :=
  (assigned : Int) - (approved : Int) + (changes : Int)

/-- The limit comparison of handleTaskLimitChecks: the check passes unless
Math.abs(adjustedAssignedIssues) >= limit. -/
def taskLimitEligible (assigned approved changes limit : Nat) : Bool :=
  if (adjustedCount assigned approved changes).natAbs ≥ limit then false else true

/-- Error message suffix of the reassignment bar (the username is prepended). -/
def unassignedSuffix : String := " you were previously unassigned from this task. You cannot be reassigned."

/-- Messages thrown by start in start.ts.  The parent message is quoted without
the quote marks around the command name. -/
def parentIssueMsg : String := "Skipping /start since the issue is a parent issue"

def closedMsg : String := "This issue is closed, please choose another."

def alreadySelfMsg : String := "You are already assigned to this task."

def alreadyOtherMsg : String := "This issue is already assigned. Please choose another unassigned task."

def allTeammatesMsg : String := "All teammates have reached their max task limit. Please close out some tasks before assigning new ones."

def maxLimitMsg : String := "You have reached your max task limit. Please close out some tasks before assigning new ones."

def priceMsg : String := "No price label is set to calculate the duration"

def collabMsg : String := "Only collaborators can be assigned to this issue."

def fetchIdsMsg : String := "Error while fetching user ids"

/-- A label of the work item: name and optional description. -/
structure Label where
  name : String
  description : Option String
deriving DecidableEq, Repr

/-- Issue state (ISSUE_TYPE). -/
inductive IssueState where
  | opened
  | closed
deriving DecidableEq, Repr

/-- A user: login and numeric id. -/
structure User where
  login : String
  id : Nat
deriving DecidableEq, Repr

/-- The work item as consumed by start. -/
structure Issue where
  number : Nat
  state : IssueState
  body : Option String
  assignees : List User
  labels : List Label
  createdAt : Nat
deriving Repr

/-- Results of the remote reads performed during one run of start, per
contributor login where applicable:
  assignedCount u  = getAssignedIssues(context, u).length
  approvedCount u  = getAvailableOpenedPullRequests(context, u).approved.length
  changesCount u   = getAvailableOpenedPullRequests(context, u).changes.length
  limitOf u        = getUserRoleAndTaskLimit(context, u).limit
  appId            = getAppId(context)
  events           = getAssignmentEvents(context) for the issue of the payload
  isCollaborator u = isUserCollaborator(context, u)
  userId u         = users.getByUsername(u).id, 0 encoding a missing id. -/
structure Env where
  assignedCount : String → Nat
  approvedCount : String → Nat
  changesCount : String → Nat
  limitOf : String → Nat
  appId : Nat
  events : List AssignmentEvent
  isCollaborator : String → Bool
  userId : String → Nat

/-- handleTaskLimitChecks from start.ts.  It receives the candidate username,
but the reassignment-history call inside it consults only the sender login
(hasUserBeenUnassigned takes no username).  Returns ok false when the limit
comparison fails, throws on a history bar, ok true otherwise. -/
def handleTaskLimitChecks (env : Env) (senderLogin username : String) : Except String Bool :=
  if !(taskLimitEligible (env.assignedCount username) (env.approvedCount username)
        (env.changesCount username) (env.limitOf username)) then
    Except.ok false
  else if hasUserBeenUnassigned env.appId senderLogin env.events then
    Except.error (username ++ unassignedSuffix)
  else Except.ok true

/-- Observable steps of one run of start, in execution order.  fetchCommit is
the read of the default-branch commit; addAssignees and addComment are the two
remote writes; the Gate constructors mark the corresponding checks firing. -/
inductive Act where
  | fetchCommit
  | addComment
  | addAssignees (users : List String)
  | limitCheck (user : String)
  | historyCheck (user : String)
  | emptySetGate
  | priceGate
  | collabGate (user : String)
deriving DecidableEq, Repr

/-- The limit comparison of handleTaskLimitChecks for one user under an Env. -/
def limitOk (env : Env) (u : String) : Bool :=
  taskLimitEligible (env.assignedCount u) (env.approvedCount u) (env.changesCount u) (env.limitOf u)

/-- The per-candidate loop of start (for user of teammates: handleTaskLimitChecks),
inlined with trace markers.  A user failing the limit comparison is skipped; a
user passing it triggers the history check, whose positive answer throws and
stops the loop. -/
def limitLoop (env : Env) (senderLogin : String) : List String → Except String (List String) × List Act
  | [] => (Except.ok [], [])
  | u :: rest =>
    if limitOk env u then
      if hasUserBeenUnassigned env.appId senderLogin env.events then
        (Except.error (u ++ unassignedSuffix), [Act.limitCheck u, Act.historyCheck u])
      else
        match limitLoop env senderLogin rest with
        | (Except.ok others, tr) => (Except.ok (u :: others), Act.limitCheck u :: Act.historyCheck u :: tr)
        | (Except.error e, tr) => (Except.error e, Act.limitCheck u :: Act.historyCheck u :: tr)
    else
      match limitLoop env senderLogin rest with
      | (res, tr) => (res, Act.limitCheck u :: tr)

/-- Trace of the per-candidate loop when no history bar fires. -/
def loopTrace (env : Env) : List String → List Act
  | [] => []
  | u :: rest =>
    (if limitOk env u then [Act.limitCheck u, Act.historyCheck u] else [Act.limitCheck u])
      ++ loopTrace env rest

/-- A price label: name starts with the price marker. -/
def isPriceLabel (l : Label) : Bool :=
  "Price: ".data.isPrefixOf l.name.data

/-- A restricted label: the description contains the collaborator-only marker. -/
def labelRestricted (l : Label) : Bool :=
  match l.description with
  | some d => containsSub "collaborator only".data d.data
  | none => false

/-- Inner loop of the restricted-label check in start: every user of toAssign
must be a collaborator, the first failure throws. -/
def collabUsersLoop (env : Env) : List String → Except String Unit × List Act
  | [] => (Except.ok (), [])
  | u :: rest =>
    if env.isCollaborator u then
      ((collabUsersLoop env rest).1, Act.collabGate u :: (collabUsersLoop env rest).2)
    else
      (Except.error collabMsg, [Act.collabGate u])

/-- Outer loop of the restricted-label check: for every label whose description
contains the collaborator-only marker, run the inner loop over toAssign. -/
def collabLabelsLoop (env : Env) (toAssign : List String) : List Label → Except String Unit × List Act
  | [] => (Except.ok (), [])
  | l :: rest =>
    if labelRestricted l then
      match collabUsersLoop env toAssign with
      | (Except.error e, tr) => (Except.error e, tr)
      | (Except.ok _, tr) =>
        ((collabLabelsLoop env toAssign rest).1, tr ++ (collabLabelsLoop env toAssign rest).2)
    else collabLabelsLoop env toAssign rest

/-- The tail of start after the per-candidate loop: the empty-set gate with its
two messages, the price-label gate, the restricted-label gate, the user-id
lookups, then the assignee write and the confirmation comment. -/
def afterLimit (env : Env) (issue : Issue) (users toAssign : List String) :
    Except String (List String) × List Act :=
  if toAssign.length = 0 ∧ users.length > 1 then
    (Except.error allTeammatesMsg, [Act.emptySetGate])
  else if toAssign.length = 0 then
    (Except.error maxLimitMsg, [Act.emptySetGate])
  else
    match issue.labels.find? (fun l => isPriceLabel l) with
    | none => (Except.error priceMsg, [Act.emptySetGate, Act.priceGate])
    | some _ =>
      match collabLabelsLoop env toAssign issue.labels with
      | (Except.error e, trc) => (Except.error e, Act.emptySetGate :: Act.priceGate :: trc)
      | (Except.ok _, trc) =>
        if (toAssign.map env.userId).any (fun i => i == 0) then
          (Except.error fetchIdsMsg, Act.emptySetGate :: Act.priceGate :: trc)
        else
          (Except.ok toAssign,
           (Act.emptySetGate :: Act.priceGate :: trc) ++ [Act.addAssignees toAssign, Act.addComment])

/-- The parent-issue gate of start: the body is present, non-empty (truthy) and
matches the parent pattern. -/
def parentGate (issue : Issue) : Bool :=
  match issue.body with
  | some b => !b.data.isEmpty && isParentIssue b
  | none => false

/-- start from start.ts as a pure function from the Env and the payload to the
outcome (the thrown message or the committed assignee list) paired with the
ordered trace of observable steps.  The parent path posts a warning comment
before throwing; every other rejection path performs no remote write. -/
def startRun (env : Env) (issue : Issue) (sender : User) (teammates : List String) :
    Except String (List String) × List Act :=
  if parentGate issue then
    (Except.error parentIssueMsg, [Act.addComment])
  else if issue.state = IssueState.closed then
    (Except.error closedMsg, [Act.fetchCommit])
  else if issue.assignees.length ≠ 0 then
    (Except.error
      (if issue.assignees.any (fun a => a.login == sender.login) then alreadySelfMsg else alreadyOtherMsg),
     [Act.fetchCommit])
  else
    match limitLoop env sender.login (teammates ++ [sender.login]) with
    | (Except.error e, tr) => (Except.error e, Act.fetchCommit :: tr)
    | (Except.ok toAssign, tr) =>
      ((afterLimit env issue (teammates ++ [sender.login]) toAssign).1,
       Act.fetchCommit :: (tr ++ (afterLimit env issue (teammates ++ [sender.login]) toAssign).2))

/-- Gate actions of steps 5 to 7 (empty set, price label, restricted label). -/
def isGateAction : Act → Bool
  | Act.emptySetGate => true
  | Act.priceGate => true
  | Act.collabGate _ => true
  | _ => false

/-- History-check actions. -/
def isHistoryAction : Act → Bool
  | Act.historyCheck _ => true
  | _ => false

/-- Limit-check actions. -/
def isLimitCheckAction : Act → Bool
  | Act.limitCheck _ => true
  | _ => false

/-- Remote writes: the assignee update and comment creation. -/
def isWriteAction : Act → Bool
  | Act.addAssignees _ => true
  | Act.addComment => true
  | _ => false

/-- Holds of a trace in which no history-check action occurs after any gate
action of steps 5 to 7, i.e. every history check precedes every such gate. -/
def historyPrecedesGates : List Act → Bool
  | [] => true
  | a :: t => if isGateAction a then t.all (fun b => !(isHistoryAction b)) else historyPrecedesGates t

/-- One review as consumed by the pull-request classifiers: the state string
and the optional submission timestamp.  For the GraphQL version these are the
reviews nodes; for the REST version, the authority-filtered review list. -/
structure ReviewNode where
  state : String
  submittedAt : Option Nat
deriving DecidableEq, Repr

/-- One open pull request of the checked user, together with the underlying
review and review-request-timeline data both classifier versions consume:
reviews in chronological order, and the created-at times of the
review-requested and review-request-removed timeline events. -/
structure PrData where
  number : Nat
  createdAt : Nat
  reviews : List ReviewNode
  reviewRequestEvents : List Nat
deriving DecidableEq, Repr

/-- getLatestReviewStatus from the GraphQL version: the last review node and
whether any node has the changes-requested state. -/
def getLatestReviewStatus (nodes : List ReviewNode) : Option ReviewNode × Bool :=
  (nodes.getLast?, nodes.any (fun r => r.state == "CHANGES_REQUESTED"))

/-- Loop body of the GraphQL getAvailableOpenedPullRequests: the accumulator
holds the approved and changes arrays, appended at the end as by push, with
changes.pop modelled by dropLast. -/
def v1Step (now tolerance : Nat) (acc : List PrData × List PrData) (pr : PrData) :
    List PrData × List PrData :=
  let approved := acc.1
  let changes := acc.2
  let st := getLatestReviewStatus pr.reviews
  let latestReviewState := st.1.map (fun r => r.state)
  if latestReviewState == some "APPROVED" || !st.2 then
    (approved ++ [pr], changes)
  else if latestReviewState == some "CHANGES_REQUESTED" then
    let changes1 := changes ++ [pr]
    let lastChangesRequestedTime := st.1.bind (fun r => r.submittedAt)
    let isReviewRequestedAfterChanges :=
      match lastChangesRequestedTime with
      | some t => pr.reviewRequestEvents.any (fun ev => decide (t < ev))
      | none => false
    if isReviewRequestedAfterChanges then
      (approved ++ [pr], changes1.dropLast)
    else if st.1.isNone && decide (tolerance ≤ now - pr.createdAt) then
      (approved ++ [pr], changes1)
    else (approved, changes1)
  else if st.1.isNone && decide (tolerance ≤ now - pr.createdAt) then
    (approved ++ [pr], changes)
  else (approved, changes)

/-- getAvailableOpenedPullRequests, GraphQL version (part_000, second section):
classify each open pull request by the latest review state, with the
re-request-after-changes override and the no-review tolerance rule. -/
def getAvailableOpenedPullRequests (now tolerance : Nat) (prs : List PrData) :
    List PrData × List PrData :=
  prs.foldl (v1Step now tolerance) ([], [])

/-- Net per-pull-request effect of one v1Step iteration: whether the pull
request ends up in the approved list and in the changes list. -/
def v1Classify (now tolerance : Nat) (pr : PrData) : Bool × Bool :=
  let st := getLatestReviewStatus pr.reviews
  let latestReviewState := st.1.map (fun r => r.state)
  if latestReviewState == some "APPROVED" || !st.2 then
    (true, false)
  else if latestReviewState == some "CHANGES_REQUESTED" then
    let lastChangesRequestedTime := st.1.bind (fun r => r.submittedAt)
    let isReviewRequestedAfterChanges :=
      match lastChangesRequestedTime with
      | some t => pr.reviewRequestEvents.any (fun ev => decide (t < ev))
      | none => false
    if isReviewRequestedAfterChanges then
      (true, false)
    else if st.1.isNone && decide (tolerance ≤ now - pr.createdAt) then
      (true, true)
    else (false, true)
  else if st.1.isNone && decide (tolerance ≤ now - pr.createdAt) then
    (true, false)
  else (false, false)

/-- Loop body of the REST getAvailableOpenedPullRequests (part_000, third
section): any approved review puts the pull request in approved, any
changes-requested review puts that review in changes, an unreviewed pull
request older than the tolerance counts as approved. -/
def v2Step (now tolerance : Nat) (acc : List PrData × List ReviewNode) (pr : PrData) :
    List PrData × List ReviewNode :=
  let approved := acc.1
  let changes := acc.2
  let reviews := pr.reviews
  let approved1 :=
    if 0 < reviews.length ∧ (reviews.find? (fun r => r.state == "APPROVED")).isSome then
      approved ++ [pr]
    else approved
  let changes1 :=
    if 0 < reviews.length then
      match reviews.find? (fun r => r.state == "CHANGES_REQUESTED") with
      | some r => changes ++ [r]
      | none => changes
    else changes
  let approved2 :=
    if reviews.length = 0 ∧ tolerance ≤ now - pr.createdAt then approved1 ++ [pr] else approved1
  (approved2, changes1)

/-- getAvailableOpenedPullRequests, REST version (part_000, third section). -/
def getAvailableOpenedPullRequestsRest (now tolerance : Nat) (prs : List PrData) :
    List PrData × List ReviewNode :=
  prs.foldl (v2Step now tolerance) ([], [])

/-- Concrete assignment timeline: bob was unassigned by carol (id 7). -/
def evBarBob : List AssignmentEvent :=
  [{ kind := EvKind.assigned, actor := "carol", actorId := 7, assignee := "bob", createdAt := 1 },
   { kind := EvKind.unassigned, actor := "carol", actorId := 7, assignee := "bob", createdAt := 2 }]

/-- Concrete assignment timeline: alice was unassigned by carol (id 7), an
actor who is neither alice nor the bot. -/
def evAliceUnassigned : List AssignmentEvent :=
  [{ kind := EvKind.assigned, actor := "carol", actorId := 7, assignee := "alice", createdAt := 1 },
   { kind := EvKind.unassigned, actor := "carol", actorId := 7, assignee := "alice", createdAt := 2 }]

/-- Environment in which every user is far under the limit and the issue
timeline is empty. -/
def envOk : Env :=
  { assignedCount := fun _ => 0, approvedCount := fun _ => 0, changesCount := fun _ => 0,
    limitOf := fun _ => 2, appId := 99, events := [],
    isCollaborator := fun _ => true, userId := fun _ => 1 }

/-- Environment in which the sender bob carries a history bar. -/
def envBarredBob : Env :=
  { assignedCount := fun _ => 0, approvedCount := fun _ => 0, changesCount := fun _ => 0,
    limitOf := fun _ => 2, appId := 99, events := evBarBob,
    isCollaborator := fun _ => true, userId := fun _ => 1 }

/-- Environment whose issue timeline bars alice (but not the sender bob). -/
def envAliceBar : Env :=
  { assignedCount := fun _ => 0, approvedCount := fun _ => 0, changesCount := fun _ => 0,
    limitOf := fun _ => 2, appId := 99, events := evAliceUnassigned,
    isCollaborator := fun _ => true, userId := fun _ => 1 }

/-- Environment in which alice is over her limit and bob under his. -/
def envAliceOver : Env :=
  { assignedCount := fun u => if u == "alice" then 5 else 0,
    approvedCount := fun _ => 0, changesCount := fun _ => 0,
    limitOf := fun _ => 2, appId := 99, events := [],
    isCollaborator := fun _ => true, userId := fun _ => 1 }

/-- An open, unassigned issue with no labels at all (hence no price label). -/
def issueNoPrice : Issue :=
  { number := 1, state := IssueState.opened, body := none, assignees := [], labels := [],
    createdAt := 0 }

/-- An open, unassigned issue with a price label. -/
def issuePriced : Issue :=
  { number := 2, state := IssueState.opened, body := none, assignees := [],
    labels := [{ name := "Price: 1 Day", description := none }], createdAt := 0 }

/-- The sender bob. -/
def senderBob : User := { login := "bob", id := 1 }

/-- An open issue already assigned to bob. -/
def issueAssignedBob : Issue :=
  { number := 3, state := IssueState.opened, body := none, assignees := [senderBob],
    labels := [{ name := "Price: 1 Day", description := none }], createdAt := 0 }

/-- A pull request whose only review requests changes at time 5, with a review
request event at time 7. -/
def prChangesThenRequest : PrData :=
  { number := 10, createdAt := 0,
    reviews := [{ state := "CHANGES_REQUESTED", submittedAt := some 5 }],
    reviewRequestEvents := [7] }

/-- A pull request with no reviews at all, created at time 100. -/
def prNoReviews : PrData :=
  { number := 11, createdAt := 100, reviews := [], reviewRequestEvents := [] }

/-
Helper lemmas (not tied to any single claim).
-/

theorem mem_of_getLast_eq_some {α : Type} : ∀ (l : List α) (a : α), l.getLast? = some a → a ∈ l := by
  intro l
  induction l with
  | nil => intro a h; simp at h
  | cons x xs ih =>
    intro a h
    cases xs with
    | nil =>
      simp [List.getLast?] at h
      simp [h]
    | cons y ys =>
      rw [List.getLast?_cons_cons] at h
      exact List.mem_cons_of_mem x (ih a h)

theorem dropLast_append_one {α : Type} (l : List α) (a : α) : (l ++ [a]).dropLast = l := by
  simp

/-- Claim C3: the task-limit comparison passes exactly when the absolute value
of the adjusted count (open assigned issues minus approved open pull requests
plus changes-requested open pull requests) is strictly below the limit; at an
adjusted count of absolute value equal to the limit the contributor is
ineligible, and at limit - 1 eligible. -/
theorem taskLimitEligible_iff_absLt (a p c l : Nat) :
    (taskLimitEligible a p c l = true ↔ (adjustedCount a p c).natAbs < l) ∧
    ((adjustedCount a p c).natAbs = l → taskLimitEligible a p c l = false) ∧
    (1 ≤ l → (adjustedCount a p c).natAbs = l - 1 → taskLimitEligible a p c l = true) := by
  refine ⟨?_, ?_, ?_⟩
  · unfold taskLimitEligible
    split
    · simp; omega
    · simp; omega
  · intro h
    unfold taskLimitEligible
    split
    · rfl
    · omega
  · intro hl h
    unfold taskLimitEligible
    split
    · omega
    · rfl

theorem filter_length_pos_iff {α : Type} (l : List α) (p : α → Bool) :
    0 < (l.filter p).length ↔ ∃ x ∈ l, p x = true := by
  rw [List.length_pos]
  constructor
  · intro hne
    rcases List.exists_mem_of_ne_nil _ hne with ⟨x, hx⟩
    rcases List.mem_filter.mp hx with ⟨hxl, hpx⟩
    exact ⟨x, hxl, hpx⟩
  · rintro ⟨x, hxl, hpx⟩
    intro hnil
    have hmem : x ∈ l.filter p := List.mem_filter.mpr ⟨hxl, hpx⟩
    rw [hnil] at hmem
    simp at hmem

/-- Claim C5: for a contributor with at least one matching timeline event, the
history check bars them exactly when some unassignment event of theirs was
performed by the bot id, or by an actor who is neither the contributor nor the
bot; and a contributor whose matching unassignment events were all performed by
themselves (and not under the bot id) is never barred. -/
theorem hasUserBeenUnassigned_barred_iff (appId : Nat) (login : String)
    (events : List AssignmentEvent)
    (h : ∃ e ∈ events, lowerStr e.assignee = lowerStr login) :
    (hasUserBeenUnassigned appId login events = true ↔
      ∃ e ∈ events, lowerStr e.assignee = lowerStr login ∧ e.kind = EvKind.unassigned ∧
        (e.actorId = appId ∨ (lowerStr e.actor ≠ lowerStr login ∧ e.actorId ≠ appId))) ∧
    ((∀ e ∈ events, lowerStr e.assignee = lowerStr login → e.kind = EvKind.unassigned →
        lowerStr e.actor = lowerStr login ∧ e.actorId ≠ appId) →
      hasUserBeenUnassigned appId login events = false) := by
  have hne : (events.filter (fun e => lowerStr e.assignee == lowerStr login)).isEmpty = false := by
    rcases h with ⟨e, he, hass⟩
    rcases hemp : (events.filter (fun e => lowerStr e.assignee == lowerStr login)).isEmpty with _ | _
    · exact hemp
    · exfalso
      rw [List.isEmpty_iff] at hemp
      have hmem : e ∈ events.filter (fun e => lowerStr e.assignee == lowerStr login) :=
        List.mem_filter.mpr ⟨he, by simp [hass]⟩
      rw [hemp] at hmem
      simp at hmem
  have main : hasUserBeenUnassigned appId login events = true ↔
      ∃ e ∈ events, lowerStr e.assignee = lowerStr login ∧ e.kind = EvKind.unassigned ∧
        (e.actorId = appId ∨ (lowerStr e.actor ≠ lowerStr login ∧ e.actorId ≠ appId)) := by
    simp only [hasUserBeenUnassigned, hne, Bool.false_eq_true, if_false, Bool.or_eq_true,
      decide_eq_true_eq, filter_length_pos_iff, List.mem_filter, beq_iff_eq, bne_iff_ne,
      Bool.and_eq_true]
    constructor
    · rintro (⟨e, ⟨⟨hel, hass⟩, hkind⟩, hbot⟩ | ⟨e, ⟨⟨hel, hass⟩, hkind⟩, hactor, hid⟩)
      · exact ⟨e, hel, hass, hkind, Or.inl hbot⟩
      · exact ⟨e, hel, hass, hkind, Or.inr ⟨hactor, hid⟩⟩
    · rintro ⟨e, hel, hass, hkind, (hbot | ⟨hactor, hid⟩)⟩
      · exact Or.inl ⟨e, ⟨⟨hel, hass⟩, hkind⟩, hbot⟩
      · exact Or.inr ⟨e, ⟨⟨hel, hass⟩, hkind⟩, hactor, hid⟩
  refine ⟨main, ?_⟩
  intro hall
  rcases hb : hasUserBeenUnassigned appId login events with _ | _
  · rfl
  · exfalso
    rcases main.mp hb with ⟨e, hel, hass, hkind, hbar⟩
    rcases hall e hel hass hkind with ⟨hactor, hid⟩
    rcases hbar with hbot | ⟨hactor2, _⟩
    · exact hid hbot
    · exact hactor2 hactor

/-- Witness for claim C3 at concrete inputs: with 3 assigned issues, 1 approved
pull request and limit 2 the adjusted count is 2 and the check fails; with 2
assigned issues it is 1 and the check passes. -/
theorem taskLimitEligible_iff_absLt_witness :
    taskLimitEligible 3 1 0 2 = false ∧ taskLimitEligible 2 1 0 2 = true :=
  ⟨(taskLimitEligible_iff_absLt 3 1 0 2).2.1 (by decide),
   (taskLimitEligible_iff_absLt 2 1 0 2).2.2 (by decide) (by decide)⟩

/-- Witness for claim C5 at a concrete input: Bob (checked case-insensitively)
was unassigned by carol, who is neither Bob nor the bot id 99, so the check
bars him. -/
theorem hasUserBeenUnassigned_barred_iff_witness :
    hasUserBeenUnassigned 99 "Bob" evBarBob = true :=
  ((hasUserBeenUnassigned_barred_iff 99 "Bob" evBarBob (by decide)).1).mpr (by decide)

/-- Claim C1 (divergence witness): the reassignment-history check inside
handleTaskLimitChecks does not filter the timeline by the checked candidate.
With sender bob checking candidate alice, whose timeline shows an unassignment
by the admin carol, the check still passes alice (it filtered by bob), although
filtering by alice herself flags the bar. -/
theorem handleTaskLimitChecks_consults_sender_history :
    handleTaskLimitChecks envAliceBar "bob" "alice" = Except.ok true ∧
    hasUserBeenUnassigned 99 "alice" evAliceUnassigned = true := by
  constructor
  · rfl
  · decide

theorem all_imp {p q : Act → Bool} (hpq : ∀ a, p a = true → q a = true) (t : List Act)
    (h : t.all p = true) : t.all q = true := by
  rw [List.all_eq_true] at h ⊢
  exact fun a ha => hpq a (h a ha)

theorem limitLoop_trace_flags (env : Env) (s : String) (us : List String) :
    (limitLoop env s us).2.all (fun a => !(isGateAction a) && !(isWriteAction a)) = true := by
  induction us with
  | nil => rfl
  | cons u rest ih =>
    rcases hr : limitLoop env s rest with ⟨res, tr⟩
    rw [hr] at ih
    simp [isGateAction, isWriteAction] at ih
    by_cases hu : limitOk env u
    · by_cases hbar : hasUserBeenUnassigned env.appId s env.events
      · simp [limitLoop, hu, hbar, isGateAction, isWriteAction]
      · cases res with
        | ok others =>
          simp [limitLoop, hu, hbar, hr, isGateAction, isWriteAction]
          exact ih
        | error e =>
          simp [limitLoop, hu, hbar, hr, isGateAction, isWriteAction]
          exact ih
    · cases res with
      | ok others =>
        simp [limitLoop, hu, hr, isGateAction, isWriteAction]
        exact ih
      | error e =>
        simp [limitLoop, hu, hr, isGateAction, isWriteAction]
        exact ih

theorem limitLoop_no_bar (env : Env) (s : String)
    (hb : hasUserBeenUnassigned env.appId s env.events = false) (us : List String) :
    limitLoop env s us = (Except.ok (us.filter (limitOk env)), loopTrace env us) := by
  induction us with
  | nil => rfl
  | cons u rest ih =>
    by_cases hu : limitOk env u
    · simp [limitLoop, loopTrace, hu, hb, ih, List.filter_cons]
    · simp [limitLoop, loopTrace, hu, hb, ih, List.filter_cons]

theorem loopTrace_filter_limitCheck (env : Env) (us : List String) :
    (loopTrace env us).filter (fun a => isLimitCheckAction a) = us.map Act.limitCheck := by
  have e1 : ∀ v, isLimitCheckAction (Act.limitCheck v) = true := fun _ => rfl
  have e2 : ∀ v, isLimitCheckAction (Act.historyCheck v) = false := fun _ => rfl
  induction us with
  | nil => rfl
  | cons u rest ih =>
    by_cases hu : limitOk env u
    · simp [loopTrace, hu, List.filter_append, ih, e1, e2, List.filter_cons]
    · simp [loopTrace, hu, List.filter_append, ih, e1, e2, List.filter_cons]

theorem historyPrecedesGates_of_noHistory (t : List Act)
    (h : t.all (fun a => !(isHistoryAction a)) = true) : historyPrecedesGates t = true := by
  induction t with
  | nil => rfl
  | cons a t ih =>
    rw [List.all_cons, Bool.and_eq_true] at h
    by_cases hg : isGateAction a
    · simp only [historyPrecedesGates]
      rw [if_pos hg]
      exact h.2
    · simp only [historyPrecedesGates]
      rw [if_neg hg]
      exact ih h.2

theorem historyPrecedesGates_append (t1 t2 : List Act)
    (h1 : t1.all (fun a => !(isGateAction a)) = true)
    (h2 : t2.all (fun a => !(isHistoryAction a)) = true) :
    historyPrecedesGates (t1 ++ t2) = true := by
  induction t1 with
  | nil => simpa using historyPrecedesGates_of_noHistory t2 h2
  | cons a t ih =>
    rw [List.all_cons, Bool.and_eq_true] at h1
    have hg : isGateAction a = false := by
      have := h1.1
      simp at this
      exact this
    rw [List.cons_append]
    simp only [historyPrecedesGates]
    rw [if_neg (by simp [hg])]
    exact ih h1.2

theorem collabUsersLoop_trace (env : Env) (us : List String) :
    (collabUsersLoop env us).2.all (fun a => !(isHistoryAction a) && !(isWriteAction a)) = true := by
  induction us with
  | nil => rfl
  | cons u rest ih =>
    simp [isHistoryAction, isWriteAction] at ih
    by_cases hc : env.isCollaborator u
    · simp [collabUsersLoop, hc, isHistoryAction, isWriteAction]
      exact ih
    · simp [collabUsersLoop, hc, isHistoryAction, isWriteAction]

theorem collabUsersLoop_error (env : Env) (us : List String) (e : String)
    (h : (collabUsersLoop env us).1 = Except.error e) : e = collabMsg := by
  induction us with
  | nil => simp [collabUsersLoop] at h
  | cons u rest ih =>
    by_cases hc : env.isCollaborator u
    · simp [collabUsersLoop, hc] at h
      exact ih h
    · simp [collabUsersLoop, hc] at h
      exact h.symm

theorem collabLabelsLoop_trace (env : Env) (ta : List String) (ls : List Label) :
    (collabLabelsLoop env ta ls).2.all (fun a => !(isHistoryAction a) && !(isWriteAction a)) = true := by
  induction ls with
  | nil => rfl
  | cons l rest ih =>
    by_cases hl : labelRestricted l
    · rcases hc : collabUsersLoop env ta with ⟨res, tr⟩
      have htr := collabUsersLoop_trace env ta
      rw [hc] at htr
      cases res with
      | ok u2 => simp [collabLabelsLoop, hl, hc, List.all_append, htr, ih]
      | error e => simp [collabLabelsLoop, hl, hc, htr]
    · simp [collabLabelsLoop, hl, ih]

theorem collabLabelsLoop_error (env : Env) (ta : List String) (ls : List Label) (e : String)
    (h : (collabLabelsLoop env ta ls).1 = Except.error e) : e = collabMsg := by
  induction ls with
  | nil => simp [collabLabelsLoop] at h
  | cons l rest ih =>
    by_cases hl : labelRestricted l
    · rcases hc : collabUsersLoop env ta with ⟨res, tr⟩
      cases res with
      | ok u2 =>
        simp [collabLabelsLoop, hl, hc] at h
        exact ih h
      | error e2 =>
        simp [collabLabelsLoop, hl, hc] at h
        rw [← h]
        exact collabUsersLoop_error env ta e2 (by rw [hc])
    · simp [collabLabelsLoop, hl] at h
      exact ih h

theorem afterLimit_trace_noHistory (env : Env) (issue : Issue) (users ta : List String) :
    (afterLimit env issue users ta).2.all (fun a => !(isHistoryAction a)) = true := by
  unfold afterLimit
  split
  · rfl
  · split
    · rfl
    · rcases hf : issue.labels.find? (fun l => isPriceLabel l) with _ | l0
      · rfl
      · rcases hc : collabLabelsLoop env ta issue.labels with ⟨res, trc⟩
        have htr := collabLabelsLoop_trace env ta issue.labels
        rw [hc] at htr
        have htr2 : trc.all (fun a => !(isHistoryAction a)) = true :=
          all_imp (fun a ha => by
            rw [Bool.and_eq_true] at ha
            exact ha.1) trc htr
        cases res with
        | ok u2 =>
          by_cases hid : (ta.map env.userId).any (fun i => i == 0)
          · simp [hid, isHistoryAction, List.all_append]
            rw [List.all_eq_true] at htr2
            exact fun b hb2 => by simpa using htr2 b hb2
          · simp [hid, isHistoryAction, List.all_append]
            rw [List.all_eq_true] at htr2
            exact fun b hb2 => by simpa using htr2 b hb2
        | error e =>
          simp [isHistoryAction]
          rw [List.all_eq_true] at htr2
          exact fun b hb2 => by simpa using htr2 b hb2

theorem afterLimit_empty (env : Env) (issue : Issue) (users ta : List String) (h0 : ta = []) :
    (afterLimit env issue users ta).1 =
      Except.error (if users.length > 1 then allTeammatesMsg else maxLimitMsg) := by
  subst h0
  unfold afterLimit
  by_cases hu : users.length > 1
  · simp [hu]
  · simp [hu]

theorem afterLimit_nonempty_error (env : Env) (issue : Issue) (users ta : List String)
    (e : String) (h0 : ta ≠ []) (h : (afterLimit env issue users ta).1 = Except.error e) :
    e = priceMsg ∨ e = collabMsg ∨ e = fetchIdsMsg := by
  have hlen : ¬ ta.length = 0 := by simpa [List.length_eq_zero] using h0
  unfold afterLimit at h
  rw [if_neg (by intro hand; exact hlen hand.1), if_neg hlen] at h
  rcases hf : issue.labels.find? (fun l => isPriceLabel l) with _ | l0
  · rw [hf] at h
    simp at h
    exact Or.inl h.symm
  · rw [hf] at h
    rcases hc : collabLabelsLoop env ta issue.labels with ⟨res, trc⟩
    rw [hc] at h
    cases res with
    | ok u2 =>
      by_cases hid : (ta.map env.userId).any (fun i => i == 0)
      · simp [hid] at h
        exact Or.inr (Or.inr h.symm)
      · simp [hid] at h
    | error e2 =>
      simp at h
      rw [← h]
      exact Or.inr (Or.inl (collabLabelsLoop_error env ta issue.labels e2 (by rw [hc])))

theorem afterLimit_ok_result (env : Env) (issue : Issue) (users ta ta2 : List String)
    (h : (afterLimit env issue users ta).1 = Except.ok ta2) : ta2 = ta := by
  unfold afterLimit at h
  split at h
  · simp at h
  · split at h
    · simp at h
    · rcases hf : issue.labels.find? (fun l => isPriceLabel l) with _ | l0
      · rw [hf] at h; simp at h
      · rw [hf] at h
        rcases hc : collabLabelsLoop env ta issue.labels with ⟨res, trc⟩
        rw [hc] at h
        cases res with
        | ok u2 =>
          by_cases hid : (ta.map env.userId).any (fun i => i == 0)
          · simp [hid] at h
          · simp [hid] at h
            exact h.symm
        | error e2 => simp at h

theorem afterLimit_no_price (env : Env) (issue : Issue) (users ta : List String)
    (hf : issue.labels.find? (fun l => isPriceLabel l) = none) :
    (∃ e, (afterLimit env issue users ta).1 = Except.error e) ∧
    (afterLimit env issue users ta).2.all (fun a => !(isWriteAction a)) = true := by
  unfold afterLimit
  split
  · exact ⟨⟨allTeammatesMsg, rfl⟩, rfl⟩
  · split
    · exact ⟨⟨maxLimitMsg, rfl⟩, rfl⟩
    · rw [hf]
      exact ⟨⟨priceMsg, rfl⟩, rfl⟩

theorem isWriteAction_fetchCommit : isWriteAction Act.fetchCommit = false := rfl

theorem isWriteAction_emptySetGate : isWriteAction Act.emptySetGate = false := rfl

theorem isWriteAction_priceGate : isWriteAction Act.priceGate = false := rfl

theorem isWriteAction_addComment : isWriteAction Act.addComment = true := rfl

theorem isHistoryAction_fetchCommit : isHistoryAction Act.fetchCommit = false := rfl

theorem isGateAction_fetchCommit : isGateAction Act.fetchCommit = false := rfl

theorem isGateAction_addComment : isGateAction Act.addComment = false := rfl

theorem isHistoryAction_addComment : isHistoryAction Act.addComment = false := rfl

theorem startRun_no_bar (env : Env) (issue : Issue) (sender : User) (tms : List String)
    (hp : parentGate issue = false) (ho : issue.state = IssueState.opened)
    (ha : issue.assignees = [])
    (hb : hasUserBeenUnassigned env.appId sender.login env.events = false) :
    startRun env issue sender tms =
      ((afterLimit env issue (tms ++ [sender.login])
          ((tms ++ [sender.login]).filter (limitOk env))).1,
       Act.fetchCommit ::
         (loopTrace env (tms ++ [sender.login]) ++
          (afterLimit env issue (tms ++ [sender.login])
            ((tms ++ [sender.login]).filter (limitOk env))).2)) := by
  unfold startRun
  rw [limitLoop_no_bar env sender.login hb (tms ++ [sender.login])]
  simp [hp, ho, ha]

/-- Claim C8: a work item that already carries an assignee is always rejected,
and when the already-assigned gate is the one that fires (open, non-parent
item), the message distinguishes the sender being among the assignees from
someone else being assigned. -/
theorem alreadyAssigned_rejection (env : Env) (issue : Issue) (sender : User) (tms : List String)
    (ha : issue.assignees.length ≠ 0) :
    (∃ e, (startRun env issue sender tms).1 = Except.error e) ∧
    (parentGate issue = false → issue.state = IssueState.opened →
      (startRun env issue sender tms).1 =
        Except.error (if issue.assignees.any (fun a => a.login == sender.login)
          then alreadySelfMsg else alreadyOtherMsg)) := by
  constructor
  · by_cases hp : parentGate issue
    · exact ⟨parentIssueMsg, by unfold startRun; simp [hp]⟩
    · by_cases hc : issue.state = IssueState.closed
      · exact ⟨closedMsg, by unfold startRun; simp [hp, hc]⟩
      · exact ⟨(if issue.assignees.any (fun a => a.login == sender.login)
            then alreadySelfMsg else alreadyOtherMsg), by unfold startRun; simp [hp, hc, ha]⟩
  · intro hp ho
    unfold startRun
    simp [hp, ho, ha]

/-- Witness for claim C8 at a concrete input: the issue is already assigned to
the sender bob, so the self variant of the message is thrown. -/
theorem alreadyAssigned_rejection_witness :
    (startRun envOk issueAssignedBob senderBob []).1 = Except.error alreadySelfMsg := by
  have h := (alreadyAssigned_rejection envOk issueAssignedBob senderBob [] (by decide)).2 rfl rfl
  simpa using h

/-- Claim C9: a work item without a price label can never be committed (the
request is rejected with an error), and on every such run except the parent
path (which posts its own warning comment) no remote write, neither the
assignee update nor a comment, is performed before the rejection. -/
theorem missingPriceLabel_rejects_before_writes (env : Env) (issue : Issue) (sender : User)
    (tms : List String)
    (hf : issue.labels.find? (fun l => isPriceLabel l) = none) :
    (∃ e, (startRun env issue sender tms).1 = Except.error e) ∧
    (parentGate issue = false →
      (startRun env issue sender tms).2.all (fun a => !(isWriteAction a)) = true) := by
  constructor
  · by_cases hp : parentGate issue
    · exact ⟨parentIssueMsg, by unfold startRun; simp [hp]⟩
    · by_cases hc : issue.state = IssueState.closed
      · exact ⟨closedMsg, by unfold startRun; simp [hp, hc]⟩
      · by_cases ha : issue.assignees.length ≠ 0
        · exact ⟨(if issue.assignees.any (fun a => a.login == sender.login)
              then alreadySelfMsg else alreadyOtherMsg), by unfold startRun; simp [hp, hc, ha]⟩
        · rcases hl : limitLoop env sender.login (tms ++ [sender.login]) with ⟨res, tr⟩
          cases res with
          | error e => exact ⟨e, by unfold startRun; simp [hp, hc, ha, hl]⟩
          | ok ta =>
            rcases afterLimit_no_price env issue (tms ++ [sender.login]) ta hf with ⟨⟨e, he⟩, _⟩
            refine ⟨e, ?_⟩
            unfold startRun
            simp [hp, hc, ha, hl]
            exact he
  · intro hp
    by_cases hc : issue.state = IssueState.closed
    · unfold startRun
      simp [hp, hc, isWriteAction_fetchCommit]
    · by_cases ha : issue.assignees.length ≠ 0
      · unfold startRun
        simp [hp, hc, ha, isWriteAction_fetchCommit]
      · rcases hl : limitLoop env sender.login (tms ++ [sender.login]) with ⟨res, tr⟩
        have htr := limitLoop_trace_flags env sender.login (tms ++ [sender.login])
        rw [hl] at htr
        have htrW : tr.all (fun a => !(isWriteAction a)) = true :=
          all_imp (fun a hx => by rw [Bool.and_eq_true] at hx; exact hx.2) tr htr
        have htrW2 : ∀ x ∈ tr, isWriteAction x = false := by
          rw [List.all_eq_true] at htrW
          intro x hx
          have hx2 := htrW x hx
          simpa using hx2
        cases res with
        | error e =>
          unfold startRun
          simp [hp, hc, ha, hl, isWriteAction_fetchCommit]
          exact htrW2
        | ok ta =>
          rcases afterLimit_no_price env issue (tms ++ [sender.login]) ta hf with ⟨_, hw⟩
          have hw2 : ∀ x ∈ (afterLimit env issue (tms ++ [sender.login]) ta).2,
              isWriteAction x = false := by
            rw [List.all_eq_true] at hw
            intro x hx
            have hx2 := hw x hx
            simpa using hx2
          unfold startRun
          simp [hp, hc, ha, hl, isWriteAction_fetchCommit, List.all_append]
          exact ⟨htrW2, hw2⟩

/-- Witness for claim C9 at a concrete input: on an open unassigned issue
without any label, the run of bob is rejected and its trace holds no write. -/
theorem missingPriceLabel_rejects_before_writes_witness :
    (startRun envOk issueNoPrice senderBob []).2.all (fun a => !(isWriteAction a)) = true :=
  (missingPriceLabel_rejects_before_writes envOk issueNoPrice senderBob [] rfl).2 rfl

theorem historyPrecedesGates_of_noGate (t : List Act)
    (h : t.all (fun a => !(isGateAction a)) = true) : historyPrecedesGates t = true := by
  induction t with
  | nil => rfl
  | cons a t ih =>
    rw [List.all_cons, Bool.and_eq_true] at h
    have hg : isGateAction a = false := by
      have := h.1
      simpa using this
    simp only [historyPrecedesGates]
    rw [if_neg (by simp [hg])]
    exact ih h.2

/-- Claim C2 (amended): the reassignment-history check runs inside the
per-contributor loop of step 4, so in every run of start each history-check
step precedes every firing of the empty-assignment-set, price-label and
restricted-label gates; those gates have not yet run, let alone passed, when
the history check executes. -/
theorem historyCheck_precedes_later_gates (env : Env) (issue : Issue) (sender : User)
    (tms : List String) :
    historyPrecedesGates (startRun env issue sender tms).2 = true := by
  by_cases hp : parentGate issue
  · unfold startRun
    simp [hp, historyPrecedesGates, isGateAction]
  · by_cases hc : issue.state = IssueState.closed
    · unfold startRun
      simp [hp, hc, historyPrecedesGates, isGateAction]
    · by_cases ha : issue.assignees.length ≠ 0
      · unfold startRun
        simp [hp, hc, ha, historyPrecedesGates, isGateAction]
      · rcases hl : limitLoop env sender.login (tms ++ [sender.login]) with ⟨res, tr⟩
        have htr := limitLoop_trace_flags env sender.login (tms ++ [sender.login])
        rw [hl] at htr
        have htrG : tr.all (fun a => !(isGateAction a)) = true :=
          all_imp (fun a hx => by rw [Bool.and_eq_true] at hx; exact hx.1) tr htr
        have ht1 : (Act.fetchCommit :: tr).all (fun a => !(isGateAction a)) = true := by
          rw [List.all_cons, Bool.and_eq_true]
          exact ⟨by simp [isGateAction_fetchCommit], htrG⟩
        cases res with
        | error e =>
          have hres : historyPrecedesGates (Act.fetchCommit :: tr) = true :=
            historyPrecedesGates_of_noGate _ ht1
          unfold startRun
          simp [hp, hc, ha, hl]
          exact hres
        | ok ta =>
          have h2 := afterLimit_trace_noHistory env issue (tms ++ [sender.login]) ta
          have hres := historyPrecedesGates_append (Act.fetchCommit :: tr)
            (afterLimit env issue (tms ++ [sender.login]) ta).2 ht1 h2
          unfold startRun
          simp [hp, hc, ha, hl]
          rw [List.cons_append] at hres
          exact hres

/-- Claim C2 (counterexample): with the barred sender bob on an issue that has
no price label, the history check fires (and rejects) although neither the
empty-set gate nor the price-label gate ever ran, so it cannot have run after
those gates passed. -/
theorem historyCheck_before_gates_example :
    Act.historyCheck "bob" ∈ (startRun envBarredBob issueNoPrice senderBob []).2 ∧
    Act.priceGate ∉ (startRun envBarredBob issueNoPrice senderBob []).2 ∧
    Act.emptySetGate ∉ (startRun envBarredBob issueNoPrice senderBob []).2 := by
  decide

/-- Claim C6 (counterexample): when the requester bob also names himself as a
teammate, the candidate set is not deduplicated: the run commits and both the
outcome and the assignee write carry the login bob twice. -/
theorem candidateSet_duplicate_example :
    (startRun envOk issuePriced senderBob ["bob"]).1 = Except.ok ["bob", "bob"] ∧
    Act.addAssignees ["bob", "bob"] ∈ (startRun envOk issuePriced senderBob ["bob"]).2 := by
  constructor
  · rfl
  · decide

/-- Claim C6 (amended): the candidate set submitted to the per-contributor
checks is the named teammates with the requester appended, so the requester is
always included, but no deduplication is performed: every entry of the list,
duplicates included, receives its own limit check. -/
theorem candidateSet_append_no_dedup (env : Env) (s : String) (tms : List String)
    (hb : hasUserBeenUnassigned env.appId s env.events = false) :
    (limitLoop env s (tms ++ [s])).2.filter (fun a => isLimitCheckAction a)
      = (tms ++ [s]).map Act.limitCheck ∧
    Act.limitCheck s ∈ (limitLoop env s (tms ++ [s])).2 := by
  have h1 := limitLoop_no_bar env s hb (tms ++ [s])
  constructor
  · rw [h1]
    exact loopTrace_filter_limitCheck env (tms ++ [s])
  · rw [h1]
    have hmem : Act.limitCheck s ∈
        (loopTrace env (tms ++ [s])).filter (fun a => isLimitCheckAction a) := by
      rw [loopTrace_filter_limitCheck]
      exact List.mem_map_of_mem _ (by simp)
    exact List.mem_of_mem_filter hmem

/-- Witness for the amended claim C6 at a concrete input: with teammate alice
and sender bob, the loop runs a limit check for alice and then for bob. -/
theorem candidateSet_append_no_dedup_witness :
    (limitLoop envOk "bob" (["alice"] ++ ["bob"])).2.filter (fun a => isLimitCheckAction a)
      = (["alice"] ++ ["bob"]).map Act.limitCheck ∧
    Act.limitCheck "bob" ∈ (limitLoop envOk "bob" (["alice"] ++ ["bob"])).2 :=
  candidateSet_append_no_dedup envOk "bob" ["alice"] (by decide)

/-- Claim C7: a contributor failing the task-limit comparison is dropped
individually (the loop returns exactly the candidates passing the comparison),
the run is rejected at this stage exactly when the resulting set is empty, and
that rejection distinguishes the case with named teammates from the
sole-requester case. -/
theorem limitCheck_drop_and_empty_rejection (env : Env) (issue : Issue) (sender : User)
    (tms : List String)
    (hp : parentGate issue = false) (ho : issue.state = IssueState.opened)
    (ha : issue.assignees = [])
    (hb : hasUserBeenUnassigned env.appId sender.login env.events = false) :
    (limitLoop env sender.login (tms ++ [sender.login])).1 =
      Except.ok ((tms ++ [sender.login]).filter (limitOk env)) ∧
    (((startRun env issue sender tms).1 = Except.error allTeammatesMsg ∨
      (startRun env issue sender tms).1 = Except.error maxLimitMsg) ↔
      (tms ++ [sender.login]).filter (limitOk env) = []) ∧
    ((tms ++ [sender.login]).filter (limitOk env) = [] →
      (startRun env issue sender tms).1 =
        Except.error (if tms = [] then maxLimitMsg else allTeammatesMsg)) := by
  have hrun := startRun_no_bar env issue sender tms hp ho ha hb
  have hloop := limitLoop_no_bar env sender.login hb (tms ++ [sender.login])
  refine ⟨by rw [hloop], ⟨?_, ?_⟩, ?_⟩
  · intro hout
    by_contra hne
    simp only [hrun] at hout
    rcases hout with h1 | h1
    · rcases afterLimit_nonempty_error env issue (tms ++ [sender.login])
        ((tms ++ [sender.login]).filter (limitOk env)) allTeammatesMsg hne h1 with h2 | h2 | h2 <;>
        exact absurd h2 (by decide)
    · rcases afterLimit_nonempty_error env issue (tms ++ [sender.login])
        ((tms ++ [sender.login]).filter (limitOk env)) maxLimitMsg hne h1 with h2 | h2 | h2 <;>
        exact absurd h2 (by decide)
  · intro hk
    simp only [hrun]
    rw [afterLimit_empty env issue (tms ++ [sender.login])
      ((tms ++ [sender.login]).filter (limitOk env)) hk]
    by_cases hu : (tms ++ [sender.login]).length > 1
    · left
      rw [if_pos hu]
    · right
      rw [if_neg hu]
  · intro hk
    simp only [hrun]
    rw [afterLimit_empty env issue (tms ++ [sender.login])
      ((tms ++ [sender.login]).filter (limitOk env)) hk]
    have hlen : (tms ++ [sender.login]).length = tms.length + 1 := by simp
    by_cases ht : tms = []
    · have hnu : ¬ (tms ++ [sender.login]).length > 1 := by
        rw [hlen, ht]
        simp
      rw [if_neg hnu, if_pos ht]
    · have hu : (tms ++ [sender.login]).length > 1 := by
        rw [hlen]
        have hpos := List.length_pos.mpr ht
        omega
      rw [if_pos hu, if_neg ht]

/-- Witness for claim C7 at a concrete input: with teammate alice over her
limit and sender bob under his, the loop keeps exactly bob. -/
theorem limitCheck_drop_and_empty_rejection_witness :
    (limitLoop envAliceOver "bob" (["alice"] ++ ["bob"])).1 =
      Except.ok ((["alice"] ++ ["bob"]).filter (limitOk envAliceOver)) :=
  (limitCheck_drop_and_empty_rejection envAliceOver issuePriced senderBob ["alice"]
    rfl rfl rfl (by decide)).1

theorem v1Step_eq (now tolerance : Nat) (acc : List PrData × List PrData) (pr : PrData) :
    v1Step now tolerance acc pr =
      (acc.1 ++ (if (v1Classify now tolerance pr).1 then [pr] else []),
       acc.2 ++ (if (v1Classify now tolerance pr).2 then [pr] else [])) := by
  simp only [v1Step, v1Classify]
  split_ifs <;> simp_all

theorem v1_foldl (now tol : Nat) (prs : List PrData) :
    ∀ a c : List PrData,
      prs.foldl (v1Step now tol) (a, c) =
        (a ++ prs.filter (fun pr => (v1Classify now tol pr).1),
         c ++ prs.filter (fun pr => (v1Classify now tol pr).2)) := by
  induction prs with
  | nil => intro a c; simp
  | cons pr rest ih =>
    intro a c
    rw [List.foldl_cons, v1Step_eq]
    by_cases h1 : (v1Classify now tol pr).1 <;> by_cases h2 : (v1Classify now tol pr).2 <;>
      simp [h1, h2, List.filter_cons, ih]

theorem v1Classify_changesRequested (now tol : Nat) (pr : PrData) (r : ReviewNode) (t : Nat)
    (hlast : pr.reviews.getLast? = some r)
    (hstate : r.state = "CHANGES_REQUESTED")
    (hsub : r.submittedAt = some t) :
    v1Classify now tol pr =
      (pr.reviewRequestEvents.any (fun ev => decide (t < ev)),
       !(pr.reviewRequestEvents.any (fun ev => decide (t < ev)))) := by
  have hmem : r ∈ pr.reviews := mem_of_getLast_eq_some _ _ hlast
  have hunres : pr.reviews.any (fun x => x.state == "CHANGES_REQUESTED") = true := by
    rw [List.any_eq_true]
    exact ⟨r, hmem, by simp [hstate]⟩
  simp only [v1Classify, getLatestReviewStatus, hlast, hunres, Option.map_some', hstate, hsub]
  rw [if_neg (by decide), if_pos (by decide)]
  simp only [Option.some_bind, hsub]
  cases hany : pr.reviewRequestEvents.any (fun ev => decide (t < ev)) with
  | true => simp [hany]
  | false => simp [hany]

/-- Claim C4: in the GraphQL classifier, a pull request whose latest review is
changes-requested (submitted at time t) counts as approved, and not as
changes-requested, exactly when some review-request timeline event is strictly
later than t; without such an event it counts as changes-requested and not as
approved. -/
theorem changesRequested_override_classification (now tol : Nat) (prs : List PrData)
    (pr : PrData) (r : ReviewNode) (t : Nat)
    (hmem : pr ∈ prs)
    (hlast : pr.reviews.getLast? = some r)
    (hstate : r.state = "CHANGES_REQUESTED")
    (hsub : r.submittedAt = some t) :
    (pr ∈ (getAvailableOpenedPullRequests now tol prs).1 ↔
      ∃ ev ∈ pr.reviewRequestEvents, t < ev) ∧
    (pr ∈ (getAvailableOpenedPullRequests now tol prs).2 ↔
      ¬ ∃ ev ∈ pr.reviewRequestEvents, t < ev) := by
  have hclass := v1Classify_changesRequested now tol pr r t hlast hstate hsub
  have hiff : pr.reviewRequestEvents.any (fun ev => decide (t < ev)) = true ↔
      ∃ ev ∈ pr.reviewRequestEvents, t < ev := by
    rw [List.any_eq_true]
    simp
  unfold getAvailableOpenedPullRequests
  rw [v1_foldl now tol prs [] []]
  simp only [List.nil_append]
  constructor
  · constructor
    · intro hin
      have hflag := (List.mem_filter.mp hin).2
      rw [hclass] at hflag
      exact hiff.mp hflag
    · intro hex
      refine List.mem_filter.mpr ⟨hmem, ?_⟩
      rw [hclass]
      exact hiff.mpr hex
  · constructor
    · intro hin hex
      have hflag := (List.mem_filter.mp hin).2
      rw [hclass] at hflag
      simp only [Bool.not_eq_true'] at hflag
      rw [hiff.mpr hex] at hflag
      simp at hflag
    · intro hnex
      refine List.mem_filter.mpr ⟨hmem, ?_⟩
      rw [hclass]
      simp only [Bool.not_eq_true']
      cases hany : pr.reviewRequestEvents.any (fun ev => decide (t < ev)) with
      | false => rfl
      | true => exact absurd (hiff.mp hany) hnex

/-- Witness for claim C4 at a concrete input: the only review requests changes
at time 5 and a review request follows at time 7, so the pull request counts
as approved and not as changes-requested. -/
theorem changesRequested_override_classification_witness :
    prChangesThenRequest ∈ (getAvailableOpenedPullRequests 0 1 [prChangesThenRequest]).1 ∧
    prChangesThenRequest ∉ (getAvailableOpenedPullRequests 0 1 [prChangesThenRequest]).2 := by
  have h := changesRequested_override_classification 0 1 [prChangesThenRequest]
    prChangesThenRequest { state := "CHANGES_REQUESTED", submittedAt := some 5 } 5
    (by decide) (by decide) rfl rfl
  exact ⟨h.1.mpr (by decide), fun hc => (h.2.mp hc) (by decide)⟩

/-- Claim C10 (counterexample): the two getAvailableOpenedPullRequests
versions disagree on the same underlying data: a pull request with no reviews,
created 0 milliseconds before now with tolerance 50, is approved by the
GraphQL version and by neither list of the REST version. -/
theorem v1_v2_disagree_example :
    (getAvailableOpenedPullRequests 100 50 [prNoReviews]).1 ≠
      (getAvailableOpenedPullRequestsRest 100 50 [prNoReviews]).1 := by
  decide

/-- Claim C10 (amended): the two implementations are not extensionally
equivalent: on any unreviewed pull request younger than the review delay
tolerance the GraphQL version counts it approved immediately, while the REST
version counts it neither approved nor changes-requested. -/
theorem v1_v2_not_equivalent_unreviewed_young (now tol : Nat) (pr : PrData)
    (hrev : pr.reviews = []) (hyoung : now - pr.createdAt < tol) :
    pr ∈ (getAvailableOpenedPullRequests now tol [pr]).1 ∧
    (getAvailableOpenedPullRequestsRest now tol [pr]).1 = [] ∧
    (getAvailableOpenedPullRequestsRest now tol [pr]).2 = [] := by
  have hn : ¬ tol ≤ now - pr.createdAt := Nat.not_le.mpr hyoung
  refine ⟨?_, ?_, ?_⟩
  · unfold getAvailableOpenedPullRequests
    simp only [List.foldl_cons, List.foldl_nil]
    unfold v1Step getLatestReviewStatus
    simp [hrev]
  · unfold getAvailableOpenedPullRequestsRest
    simp only [List.foldl_cons, List.foldl_nil]
    unfold v2Step
    simp [hrev, hn]
  · unfold getAvailableOpenedPullRequestsRest
    simp only [List.foldl_cons, List.foldl_nil]
    unfold v2Step
    simp [hrev, hn]

/-- Witness for the amended claim C10 at a concrete input. -/
theorem v1_v2_not_equivalent_unreviewed_young_witness :
    prNoReviews ∈ (getAvailableOpenedPullRequests 100 50 [prNoReviews]).1 ∧
    (getAvailableOpenedPullRequestsRest 100 50 [prNoReviews]).1 = [] ∧
    (getAvailableOpenedPullRequestsRest 100 50 [prNoReviews]).2 = [] :=
  v1_v2_not_equivalent_unreviewed_young 100 50 prNoReviews rfl (by decide)
